import Mathlib

/-!
Realtime voice recognition of `app/static/js/app.js` (class `ManimGPTApp`).

A shallow embedding of the streaming-recognition part of the front end:
the text operations applied to `promptInput.value`, the chunk handler of the
recorder, the per-chunk and the final transcription requests, and the
start/stop operations on the session fields; besides these the merge done by
`processRecordedAudio` and the colour chosen by `updateCharCount`.

JavaScript strings are modelled as lists of characters.  The regular
expressions and `trim` of the source only look at characters of the Basic
Multilingual Plane, so the difference between UTF-16 code units and Unicode
scalar values plays no role in what follows.
-/

namespace ManimGPT

/-! ## Text -/

/-- A JavaScript string value. -/
abbrev Str := List Char

/-- Line terminators of ECMAScript: LF, CR, LS and PS.  These are the
characters that `.` of a regular expression without the `s` flag refuses. -/
def isLineTerminator (c : Char) : Bool :=
  c.toNat == 0x0A || c.toNat == 0x0D || c.toNat == 0x2028 || c.toNat == 0x2029

/-- Characters removed by `String.prototype.trim`: ECMAScript white space
(TAB, VT, FF, SP, NBSP, ZWNBSP and the Unicode category Zs) and the line
terminators. -/
def isTrimChar (c : Char) : Bool :=
  let n := c.toNat
  n == 0x09 || n == 0x0A || n == 0x0B || n == 0x0C || n == 0x0D || n == 0x20 ||
  n == 0xA0 || n == 0x1680 || (0x2000 ≤ n && n ≤ 0x200A) || n == 0x2028 ||
  n == 0x2029 || n == 0x202F || n == 0x205F || n == 0x3000 || n == 0xFEFF

/-- Leading part of `trim`. -/
def trimStart (s : Str) : Str := s.dropWhile isTrimChar

/-- Trailing part of `trim`. -/
def trimEnd (s : Str) : Str := (s.reverse.dropWhile isTrimChar).reverse

/-- The method `String.prototype.trim`. -/
def trim (s : Str) : Str := trimEnd (trimStart s)

/-- The sentinel tag written in front of a partial transcript. -/
def markerTag : Str := "[识别中...]".toList

/-- The fixed opening of the pattern used by `finalizeRealtimeRecognition`. -/
def markerOpen : Str := "[识别中".toList

/-- The call `s.replace(/\[识别中\.\.\.\].*$/, '')` of `updateRealtimeText`.
The pattern has no flag: it matches at the leftmost position where the tag
stands and where `.*` can run up to the end of the input, that is where no
line terminator follows the tag.  The match, which reaches the end of the
input, is replaced by the empty string. -/
def stripMarkerTail : Str → Str
  | [] => []
  | c :: cs =>
    if markerTag.isPrefixOf (c :: cs) &&
        ((c :: cs).drop markerTag.length).all (fun d => !isLineTerminator d) then []
    else c :: stripMarkerTail cs

/-- The lazy tail `.*?\]` of the pattern of `finalizeRealtimeRecognition`,
tried on the input that follows the opening: the number of characters
consumed up to and including the first `]`, when no line terminator stands
before it. -/
def lazyCloseLength : Str → Option Nat
  | [] => none
  | c :: cs =>
    if c == ']' then some 1
    else if isLineTerminator c then none
    else (lazyCloseLength cs).map (· + 1)

/-- Length of the match of `/\[识别中.*?\]/` anchored at the head of the input. -/
def markerMatchLength (s : Str) : Option Nat :=
  if markerOpen.isPrefixOf s then
    (lazyCloseLength (s.drop markerOpen.length)).map (· + markerOpen.length)
  else none

/-- Worker of `removeMarkers`: the first argument counts the characters of the
current match that are still to be skipped. -/
def removeMarkersAux : Nat → Str → Str
  | _, [] => []
  | k + 1, _ :: cs => removeMarkersAux k cs
  | 0, c :: cs =>
    match markerMatchLength (c :: cs) with
    | some n => removeMarkersAux (n - 1) cs
    | none => c :: removeMarkersAux 0 cs

/-- The call `s.replace(/\[识别中.*?\]/g, '')` of `finalizeRealtimeRecognition`:
every match, found from left to right without overlap, is removed. -/
def removeMarkers (s : Str) : Str := removeMarkersAux 0 s

/-- Truthiness of a string-valued field that may be missing. -/
def truthyText : Option Str → Bool
  | none => false
  | some t => !t.isEmpty

/-! ## Data -/

/-- An audio buffer handed over by the recorder (`event.data`): its bytes. -/
structure Blob where
  bytes : List (Fin 256)
deriving DecidableEq

/-- The property `size` of a blob. -/
def Blob.size (b : Blob) : Nat := b.bytes.length

/-- The constructor `new Blob(parts, ...)`: the parts one after the other. -/
def Blob.ofParts (parts : List Blob) : Blob := ⟨(parts.map Blob.bytes).flatten⟩

/-- The parsed body of a response of `/api/realtime-speech-to-text`.  The
field `text` may be missing; `isPartial` is the field `partial`, and
`method` the optional field of that name. -/
structure Result where
  success : Bool
  text : Option Str
  isPartial : Bool
  method : Option Str := none
deriving DecidableEq

/-- The JSON body posted to `/api/realtime-speech-to-text`.  The field
`session_id` is `none` when the value sent is `null`. -/
structure Request where
  audio_chunk : Str
  session_id : Option Str
  is_final : Bool
deriving DecidableEq

/-- The attribute `state` of a `MediaRecorder`. -/
inductive RecordingState where
  | inactive
  | recording
  | paused
deriving DecidableEq

/-- The recorder object held in `this.mediaRecorder`. -/
structure MediaRecorder where
  state : RecordingState
deriving DecidableEq

/-- The fields of `ManimGPTApp` read or written by the realtime path.
`promptInput` is the value of the text area (the sink); `realtimeSessionId`
is `none` for `null`.  Toasts, console output, the character counter and
the button styling are not part of this state. -/
structure App where
  promptInput : Str
  isRecording : Bool
  realtimeRecording : Bool
  realtimeSessionId : Option Str
  realtimeChunks : List Blob
  isRealtimeMode : Bool
  mediaRecorder : Option MediaRecorder
deriving DecidableEq

/-- The fields as the constructor leaves them, for a given text in the input. -/
def App.init (value : Str) : App :=
  { promptInput := value, isRecording := false, realtimeRecording := false,
    realtimeSessionId := none, realtimeChunks := [], isRealtimeMode := false,
    mediaRecorder := none }

/-! ## Operations -/

/-- The method `updateRealtimeText`, as a function of the value of the input
and the result; it returns the new value of the input. -/
def updateRealtimeText (value : Str) (result : Result) : Str :=
  if result.success && truthyText result.text then
    let recognizedText := trim (result.text.getD [])
    if result.isPartial then
      let currentText := trim (stripMarkerTail value)
      currentText ++ (if currentText.isEmpty then [] else " ".toList) ++
        ("[识别中...] ".toList ++ recognizedText)
    else
      let currentText := trim (stripMarkerTail value)
      currentText ++ (if currentText.isEmpty then [] else " ".toList) ++ recognizedText
  else if !result.success then
    trim (stripMarkerTail value)
  else value

/-- The guard `result.success && result.text && result.text.trim()` of both
request paths. -/
def hasText (result : Result) : Bool :=
  result.success && truthyText result.text && truthyText (result.text.map trim)

/-- First half of `processRealtimeAudioChunk`, up to the call of `fetch`: the
request issued for the chunk, if any.  The method `blobToBase64` wraps the
`FileReader` of the browser: the encoding is a parameter and is taken to
resolve.  The session id is read from the fields at the time of the call:
`app` stands for the fields as they are when `fetch` is called, after the
encoding has been awaited.  `ondataavailable` and `processRealtimeAudioChunk`
below run the push, the encoding and the call in one step, so a
`stopVoiceRecording` that falls between the push and the call of `fetch`
(which would make the request carry `null`) is not among their runs. -/
def processRealtimeAudioChunk_request (blobToBase64 : Blob → Str) (app : App)
    (audioBlob : Blob) : Option Request :=
  if audioBlob.size < 50 then none
  else some { audio_chunk := blobToBase64 audioBlob,
              session_id := app.realtimeSessionId, is_final := false }

/-- Second half of `processRealtimeAudioChunk`, from the arrival of the
response on, run on the fields as they are at that time.  The response is
`none` when `fetch` or `response.json()` throws: the `catch` block only logs. -/
def processRealtimeAudioChunk_response (app : App) (response : Option Result) : App :=
  match response with
  | none => app
  | some result =>
    if hasText result then
      { app with promptInput := updateRealtimeText app.promptInput result }
    else app

/-- The method `processRealtimeAudioChunk` run without interruption against a
service that answers each request (or makes it throw): the new fields and the
requests issued. -/
def processRealtimeAudioChunk (blobToBase64 : Blob → Str)
    (service : Request → Option Result) (app : App) (audioBlob : Blob) :
    App × List Request :=
  match processRealtimeAudioChunk_request blobToBase64 app audioBlob with
  | none => (app, [])
  | some request => (processRealtimeAudioChunk_response app (service request), [request])

/-- First half of `finalizeRealtimeRecognition`, up to the call of `fetch`: the
requests issued.  With an empty buffer the method returns at once; reading
`this.mediaRecorder.mimeType` throws when there is no recorder. -/
def finalizeRealtimeRecognition_request (blobToBase64 : Blob → Str) (app : App) :
    List Request :=
  if app.realtimeChunks.length == 0 then []
  else match app.mediaRecorder with
    | none => []
    | some _ =>
      [{ audio_chunk := blobToBase64 (Blob.ofParts app.realtimeChunks),
         session_id := app.realtimeSessionId, is_final := true }]

/-- Second half of `finalizeRealtimeRecognition`, from the arrival of the
response on (`none`: the request or the parsing threw and the `catch` block
runs). -/
def finalizeRealtimeRecognition_response (app : App) (response : Option Result) : App :=
  match response with
  | some result =>
    if hasText result then
      let finalText := trim (removeMarkers (result.text.getD []))
      { app with promptInput := finalText }
    else
      { app with promptInput := trim (removeMarkers app.promptInput) }
  | none => { app with promptInput := trim (removeMarkers app.promptInput) }

/-- The method `finalizeRealtimeRecognition` run without interruption against
a service: the new fields and the requests issued. -/
def finalizeRealtimeRecognition (blobToBase64 : Blob → Str)
    (service : Request → Option Result) (app : App) : App × List Request :=
  if app.realtimeChunks.length == 0 then (app, [])
  else match app.mediaRecorder with
    | none => ({ app with promptInput := trim (removeMarkers app.promptInput) }, [])
    | some _ =>
      let request : Request :=
        { audio_chunk := blobToBase64 (Blob.ofParts app.realtimeChunks),
          session_id := app.realtimeSessionId, is_final := true }
      (finalizeRealtimeRecognition_response app (service request), [request])

/-- The method `startRealtimeRecording`.  `acquired` tells whether
`getUserMedia` and the construction of the recorder succeed; `sessionId` is
the value returned by `generateSessionId` (time and random number).  On
failure the `catch` block shows a toast and changes no field.  A call
`start(300)` that throws after `mediaRecorder`, `realtimeChunks` and
`realtimeSessionId` have been written, which would show the toast with these
three fields changed, is not covered by `acquired`. -/
def startRealtimeRecording (app : App) (acquired : Bool) (sessionId : Str) : App :=
  if acquired then
    { app with mediaRecorder := some { state := .recording },
               realtimeChunks := [],
               realtimeSessionId := some sessionId,
               realtimeRecording := true }
  else app

/-- The method `stopVoiceRecording`.  Calling `stop()` on the recorder makes it
inactive at once; its `dataavailable` and `stop` events are dispatched by the
browser in a later task, after this method has returned. -/
def stopVoiceRecording (app : App) : App :=
  { app with isRecording := false,
             realtimeRecording := false,
             mediaRecorder :=
               match app.mediaRecorder with
               | some r => if r.state = .recording then some { state := .inactive } else some r
               | none => none,
             realtimeSessionId := none,
             isRealtimeMode := false }

/-- The handler `ondataavailable` installed by `startRealtimeRecording`, up to
the call of `fetch` inside `processRealtimeAudioChunk`: the new fields and the
request issued for the chunk, if any.  `data` is `event.data`. -/
def ondataavailable (blobToBase64 : Blob → Str) (app : App) (data : Option Blob) :
    App × Option Request :=
  match data with
  | none => (app, none)
  | some blob =>
    if blob.size > 0 then
      let app1 := { app with realtimeChunks := app.realtimeChunks ++ [blob] }
      (app1, processRealtimeAudioChunk_request blobToBase64 app1 blob)
    else (app, none)

/-- The handler `onstop` installed by `startRealtimeRecording`, up to the call
of `fetch`: the requests issued by `finalizeRealtimeRecognition`. -/
def onstop_request (blobToBase64 : Blob → Str) (app : App) : List Request :=
  finalizeRealtimeRecognition_request blobToBase64 app

/-- What can happen to the fields while a session is running: the recorder
delivers a chunk, or the response of an earlier chunk request arrives. -/
inductive SessionEvent where
  | dataavailable (data : Option Blob)
  | chunkResponse (response : Option Result)

/-- The fields after one event. -/
def sessionStep (blobToBase64 : Blob → Str) (app : App) : SessionEvent → App
  | .dataavailable data => (ondataavailable blobToBase64 app data).1
  | .chunkResponse response => processRealtimeAudioChunk_response app response

/-- The fields after a sequence of events, in order. -/
def runSession (blobToBase64 : Blob → Str) (app : App) (events : List SessionEvent) : App :=
  events.foldl (sessionStep blobToBase64) app

/-- The chunks that a sequence of events delivers with a size above zero. -/
def deliveredChunks : List SessionEvent → List Blob
  | [] => []
  | .dataavailable (some blob) :: rest =>
    if blob.size > 0 then blob :: deliveredChunks rest else deliveredChunks rest
  | _ :: rest => deliveredChunks rest

/-! ## The reconciler in the words of the specification -/

/-- The part of a value that precedes the marker region: everything before the
first occurrence of the tag, the whole value when the tag does not occur. -/
def cutAtMarker : Str → Str
  | [] => []
  | c :: cs => if markerTag.isPrefixOf (c :: cs) then [] else c :: cutAtMarker cs

/-- The marker region of a value: from the first occurrence of the tag up to
the end, empty when the tag does not occur. -/
def markerRegion : Str → Str
  | [] => []
  | c :: cs => if markerTag.isPrefixOf (c :: cs) then c :: cs else markerRegion cs

/-- The separator put after a committed text: one space unless it is empty. -/
def separator (committed : Str) : Str := if committed.isEmpty then [] else [' ']

/-- The marker of a partial transcript: the tag, a space, the transcript. -/
def marker (t : Str) : Str := markerTag ++ ' ' :: t

/-- The committed part joined with a text, a space between them when both are
non-empty. -/
def joinCommitted (committed t : Str) : Str :=
  committed ++ (if committed.isEmpty || t.isEmpty then [] else [' ']) ++ t

/-! ## Sample data -/

/-- A blob of `n` zero bytes. -/
def Blob.zeros (n : Nat) : Blob := ⟨List.replicate n 0⟩

/-- A recording session with one chunk in its buffer and the given text in the
input. -/
def sampleApp (value : Str) : App :=
  { promptInput := value, isRecording := false, realtimeRecording := true,
    realtimeSessionId := some "session_1_abc".toList,
    realtimeChunks := [Blob.zeros 60], isRealtimeMode := true,
    mediaRecorder := some { state := .recording } }

/-- A successful partial result with the given text. -/
def partialResult (t : Str) : Result := { success := true, text := some t, isPartial := true }

/-- A successful final result with the given text. -/
def finalResult (t : Str) : Result := { success := true, text := some t, isPartial := false }

/-- A result that reports failure. -/
def failedResult : Result := { success := false, text := none, isPartial := false }

/-! ## Further operations -/

/-- The method `String.prototype.includes` with one argument, written
`s.includes(pat)` in the source: whether `pat` stands somewhere in `s`. -/
def includes (pat : Str) : Str → Bool
  | [] => pat.isEmpty
  | c :: cs => pat.isPrefixOf (c :: cs) || includes pat cs

/-- The arguments of one call of `showToast`. -/
structure Toast where
  title : Str
  message : Str
  type : Str
deriving DecidableEq

/-- The toasts shown by `startRealtimeRecording` itself: none when the
recorder is started, the one of the `catch` block otherwise. -/
def startRealtimeRecording_toasts (acquired : Bool) : List Toast :=
  if acquired then []
  else [{ title := "录音失败".toList, message := "无法访问麦克风或启动实时录音".toList,
          type := "error".toList }]

/-- The values given to `charCount.style.color`. -/
inductive CharCountColor where
  /-- The value `var(--warning)`. -/
  | warning
  /-- The value `var(--error)`. -/
  | error
  /-- The value `var(--text-muted)`. -/
  | textMuted
deriving DecidableEq

/-- The colour chosen by `updateCharCount` for `count`, the length of the
value of the input. -/
def updateCharCount (count : Nat) : CharCountColor :=
  if count > 500 then .warning
  else if count > 1000 then .error
  else .textMuted

/-- The part of `processRecordedAudio` that follows the parsing of the
response: the new value of the input, given its current value and the result.
Without a usable text only a toast is shown. -/
def processRecordedAudio_response (value : Str) (result : Result) : Str :=
  if hasText result then
    let recognizedText := trim (result.text.getD [])
    let currentText := trim value
    if !currentText.isEmpty && !includes recognizedText currentText then
      currentText ++ " ".toList ++ recognizedText
    else recognizedText
  else value

/-- The method `startMediaRecorderRecording`, on the fields kept in `App`
(`audioChunks` is not among them).  `acquired` is as for
`startRealtimeRecording`. -/
def startMediaRecorderRecording (app : App) (acquired : Bool) : App :=
  if acquired then
    { app with mediaRecorder := some { state := .recording }, isRecording := true }
  else app

/-- The application together with what the fields do not show: the recorders
created earlier that `this.mediaRecorder` no longer refers to, and the calls
of `startVoiceRecording` that wait for `getUserMedia`, oldest first, each with
the branch it took (`true`: `startRealtimeRecording`). -/
structure Page where
  app : App
  detached : List MediaRecorder
  pending : List Bool
deriving DecidableEq

/-- The page after the constructor has run. -/
def Page.init (value : Str) : Page :=
  { app := App.init value, detached := [], pending := [] }

/-- The method `toggleVoiceRecording`, with `startVoiceRecording` run up to its
call of `getUserMedia`.  `modifier` is the value of
`event && (event.shiftKey || event.ctrlKey)`. -/
def toggleVoiceRecording (page : Page) (modifier : Bool) : Page :=
  if page.app.isRecording || page.app.realtimeRecording then
    { page with app := stopVoiceRecording page.app }
  else
    { page with app := { page.app with isRealtimeMode := modifier },
                pending := page.pending ++ [modifier] }

/-- The oldest waiting call of `startVoiceRecording` goes on after
`getUserMedia` has settled: `startRealtimeRecording` or
`startMediaRecorderRecording` runs to its end on the fields as they are now.
The recorder that `this.mediaRecorder` referred to is not touched; it is only
no longer referred to. -/
def getUserMediaSettled (page : Page) (acquired : Bool) (sessionId : Str) : Page :=
  match page.pending with
  | [] => page
  | realtime :: rest =>
    { app := if realtime then startRealtimeRecording page.app acquired sessionId
             else startMediaRecorderRecording page.app acquired,
      detached := if acquired then page.detached ++ page.app.mediaRecorder.toList
                  else page.detached,
      pending := rest }

/-- The number of recorders of the page whose state is `recording`. -/
def Page.capturing (page : Page) : Nat :=
  ((page.app.mediaRecorder.toList ++ page.detached).filter
    (fun r => r.state = .recording)).length

/-- The beginnings of the tag that are shorter than the opening `[识别中`, each
followed by that opening: `[`, `[识` and `[识别` in front of `[识别中`. -/
def spliceOpenings : List Str :=
  ["[[识别中".toList, "[识[识别中".toList, "[识别[识别中".toList]

/-- Whether a text holds one of the `spliceOpenings`, that is a beginning of
the tag that stands directly in front of an opening. -/
def hasSpliceOpening (s : Str) : Bool := spliceOpenings.any (fun f => includes f s)

end ManimGPT


namespace ManimGPT

/-! ## Lemmas on `trim` and on the two patterns -/

theorem dropWhile_append_of_all (p : Char → Bool) (l1 l2 : Str)
    (h : ∀ x ∈ l1, p x = true) : (l1 ++ l2).dropWhile p = l2.dropWhile p := by
  induction l1 with
  | nil => rfl
  | cons a l ih =>
    have ha : p a = true := h a (List.mem_cons_self a l)
    have hl : ∀ x ∈ l, p x = true := fun x hx => h x (List.mem_cons_of_mem a hx)
    simp [List.dropWhile_cons, ha, ih hl]

theorem dropWhile_append_of_exists (p : Char → Bool) (l1 l2 : Str)
    (h : ∃ x ∈ l1, p x = false) : (l1 ++ l2).dropWhile p = l1.dropWhile p ++ l2 := by
  induction l1 with
  | nil => obtain ⟨x, hx, _⟩ := h; cases hx
  | cons a l ih =>
    cases hpa : p a with
    | false => simp [List.dropWhile_cons, hpa]
    | true =>
      have hl : ∃ x ∈ l, p x = false := by
        obtain ⟨x, hx, hpx⟩ := h
        rcases List.mem_cons.mp hx with rfl | hx
        · rw [hpa] at hpx; cases hpx
        · exact ⟨x, hx, hpx⟩
      simp [List.dropWhile_cons, hpa, ih hl]

theorem trimEnd_isPrefix (a : Str) : trimEnd a <+: a := by
  unfold trimEnd
  have h : a.reverse.dropWhile isTrimChar <:+ a.reverse := List.dropWhile_suffix _
  have h2 := List.reverse_prefix.mpr h
  simpa using h2

theorem trimEnd_append_mono (a x : Str) : trimEnd a <+: trimEnd (a ++ x) := by
  by_cases hx : ∀ c ∈ x.reverse, isTrimChar c = true
  · have h : trimEnd (a ++ x) = trimEnd a := by
      unfold trimEnd
      rw [List.reverse_append, dropWhile_append_of_all _ _ _ hx]
    rw [h]
  · have hx2 : ∃ c ∈ x.reverse, isTrimChar c = false := by
      by_contra hcon
      apply hx
      intro c hc
      cases hv : isTrimChar c with
      | true => rfl
      | false => exact absurd ⟨c, hc, hv⟩ hcon
    have h : trimEnd (a ++ x) = a ++ (x.reverse.dropWhile isTrimChar).reverse := by
      unfold trimEnd
      rw [List.reverse_append, dropWhile_append_of_exists _ _ _ hx2, List.reverse_append,
        List.reverse_reverse]
    rw [h]
    exact (trimEnd_isPrefix a).trans (List.prefix_append _ _)

theorem trimEnd_nil : trimEnd [] = [] := rfl

theorem trim_nil : trim [] = [] := rfl

/-- Trimming is monotone for the prefix order. -/
theorem trim_prefix_of_prefix (a b : Str) (h : a <+: b) : trim a <+: trim b := by
  obtain ⟨x, rfl⟩ := h
  unfold trim trimStart
  by_cases ha : ∀ c ∈ a, isTrimChar c = true
  · have h0 : a.dropWhile isTrimChar = [] := by
      rw [List.dropWhile_eq_nil_iff]; exact ha
    rw [h0, trimEnd_nil]
    exact List.nil_prefix
  · have ha2 : ∃ c ∈ a, isTrimChar c = false := by
      by_contra hcon
      apply ha
      intro c hc
      cases hv : isTrimChar c with
      | true => rfl
      | false => exact absurd ⟨c, hc, hv⟩ hcon
    rw [dropWhile_append_of_exists _ _ _ ha2]
    exact trimEnd_append_mono _ _

/-- The part before the first tag is a prefix of what the pattern of
`updateRealtimeText` leaves. -/
theorem cutAtMarker_prefix_stripMarkerTail (v : Str) : cutAtMarker v <+: stripMarkerTail v := by
  induction v with
  | nil => exact List.prefix_refl _
  | cons c cs ih =>
    unfold cutAtMarker stripMarkerTail
    cases hp : markerTag.isPrefixOf (c :: cs) with
    | true => simp
    | false =>
      simp only [Bool.false_and, Bool.false_eq_true, if_false]
      exact (List.prefix_cons_inj c).mpr ih

/-- When no line terminator stands in the marker region, the pattern of
`updateRealtimeText` removes exactly the marker region. -/
theorem stripMarkerTail_eq_cutAtMarker (v : Str)
    (h : ∀ d ∈ markerRegion v, isLineTerminator d = false) :
    stripMarkerTail v = cutAtMarker v := by
  induction v with
  | nil => rfl
  | cons c cs ih =>
    unfold cutAtMarker stripMarkerTail
    cases hp : markerTag.isPrefixOf (c :: cs) with
    | true =>
      have hr : markerRegion (c :: cs) = c :: cs := by
        rw [markerRegion]; simp [hp]
      rw [hr] at h
      have hall : ((c :: cs).drop markerTag.length).all (fun d => !isLineTerminator d) = true := by
        rw [List.all_eq_true]
        intro d hd
        have := h d (List.mem_of_mem_drop hd)
        simp [this]
      simp [hall]
    | false =>
      have hr : markerRegion (c :: cs) = markerRegion cs := by
        rw [markerRegion]; simp [hp]
      rw [hr] at h
      simp [ih h]

/-! ## Final result: `finalizeRealtimeRecognition` -/

/-- C1, the code at the failing input: with committed text `draw a circle`, a
live marker in the input and a non-empty chunk buffer, a successful final
result with text `then rotate it 90 degrees` leaves the input equal to that
text alone; the committed text is gone, so the value is not the committed
text, a space and the final text. -/
theorem C1_finalize_success_drops_committed_text :
    cutAtMarker "draw a circle [识别中...] then rotate".toList = "draw a circle ".toList ∧
    (finalizeRealtimeRecognition (fun _ => [])
        (fun _ => some (finalResult "then rotate it 90 degrees".toList))
        (sampleApp "draw a circle [识别中...] then rotate".toList)).1.promptInput
      = "then rotate it 90 degrees".toList ∧
    (finalizeRealtimeRecognition (fun _ => [])
        (fun _ => some (finalResult "then rotate it 90 degrees".toList))
        (sampleApp "draw a circle [识别中...] then rotate".toList)).1.promptInput
      ≠ joinCommitted "draw a circle".toList "then rotate it 90 degrees".toList := by
  decide

/-- C2, the code at the failing input: the input holds the committed text
`draw a circle`, the separator and the marker of the partial text
`then rotate`; a final result that reports failure, and likewise a request
that throws, removes the tag only and leaves the partial text in the input. -/
theorem C2_finalize_failure_keeps_partial_text :
    "draw a circle".toList ++ separator "draw a circle".toList ++ marker "then rotate".toList
      = "draw a circle [识别中...] then rotate".toList ∧
    (finalizeRealtimeRecognition (fun _ => []) (fun _ => some failedResult)
        (sampleApp "draw a circle [识别中...] then rotate".toList)).1.promptInput
      = "draw a circle  then rotate".toList ∧
    (finalizeRealtimeRecognition (fun _ => []) (fun _ => none)
        (sampleApp "draw a circle [识别中...] then rotate".toList)).1.promptInput
      = "draw a circle  then rotate".toList ∧
    "draw a circle  then rotate".toList ≠ "draw a circle".toList := by
  decide

/-! ## Partial results: `updateRealtimeText` -/

/-- C3 as stated fails: the value ` draw a circle` holds no marker, so its
committed part is the value itself, yet the new value does not start with it:
the leading space is trimmed away. -/
theorem C3_untrimmed_committed_counterexample :
    cutAtMarker " draw a circle".toList = " draw a circle".toList ∧
    updateRealtimeText " draw a circle".toList (partialResult "then rotate".toList)
      = "draw a circle [识别中...] then rotate".toList ∧
    updateRealtimeText " draw a circle".toList (partialResult "then rotate".toList)
      ≠ cutAtMarker " draw a circle".toList ++ separator (cutAtMarker " draw a circle".toList)
          ++ marker (trim "then rotate".toList) := by
  decide

/-- C3, amended: for every value `v` whose marker region holds no line
terminator and every successful partial result whose trimmed text `t` is
non-empty, `updateRealtimeText` sets the input to `c`, the separator and the
marker of `t`, where `c` is `v` with its marker region removed and then
trimmed, and the separator is one space when `c` is non-empty. -/
theorem C3_partial_sets_trimmed_committed_and_marker (v txt : Str) (r : Result)
    (hs : r.success = true) (hp : r.isPartial = true) (ht : r.text = some txt)
    (hne : trim txt ≠ [])
    (hline : ∀ d ∈ markerRegion v, isLineTerminator d = false) :
    updateRealtimeText v r =
      trim (cutAtMarker v) ++ separator (trim (cutAtMarker v)) ++ marker (trim txt) := by
  have htxt : txt ≠ [] := by
    intro h
    apply hne
    rw [h]
    rfl
  have htruthy : truthyText (some txt) = true := by
    cases txt with
    | nil => exact absurd rfl htxt
    | cons a l => rfl
  have hmarker : marker (trim txt) = "[识别中...] ".toList ++ trim txt := rfl
  have hsep : separator (trim (cutAtMarker v))
      = (if (trim (cutAtMarker v)).isEmpty then [] else " ".toList) := rfl
  rw [hmarker, hsep]
  unfold updateRealtimeText
  rw [stripMarkerTail_eq_cutAtMarker v hline]
  simp [hs, hp, ht, htruthy]

/-- C3, the amended statement at `draw a circle` and `then rotate`. -/
theorem C3_partial_sets_trimmed_committed_and_marker_witness :
    trim "then rotate".toList ≠ [] ∧
    (∀ d ∈ markerRegion "draw a circle".toList, isLineTerminator d = false) ∧
    updateRealtimeText "draw a circle".toList (partialResult "then rotate".toList) =
      trim (cutAtMarker "draw a circle".toList) ++
        separator (trim (cutAtMarker "draw a circle".toList)) ++
        marker (trim "then rotate".toList) :=
  ⟨by decide, by decide,
    C3_partial_sets_trimmed_committed_and_marker "draw a circle".toList "then rotate".toList
      (partialResult "then rotate".toList) rfl rfl rfl (by decide) (by decide)⟩

/-- C4, the code at the failing input: after a partial result whose text holds
a line break, the next partial result does not replace the marker region; the
first text and its tag stay in the input, and the value differs from the one
obtained by applying the second result alone. -/
theorem C4_partial_with_line_break_is_not_replaced :
    updateRealtimeText
        (updateRealtimeText "draw a circle".toList (partialResult "first line\nsecond line".toList))
        (partialResult "then rotate".toList)
      = "draw a circle [识别中...] first line\nsecond line [识别中...] then rotate".toList ∧
    updateRealtimeText "draw a circle".toList (partialResult "then rotate".toList)
      = "draw a circle [识别中...] then rotate".toList ∧
    updateRealtimeText
        (updateRealtimeText "draw a circle".toList (partialResult "first line\nsecond line".toList))
        (partialResult "then rotate".toList)
      ≠ updateRealtimeText "draw a circle".toList (partialResult "then rotate".toList) := by
  decide

/-! ## Responses and the session id -/

/-- C5 as stated fails: a chunk request is issued while the session id is
`session_1_abc`; the session is stopped, which sets the id to `null`; the
response that arrives afterwards is applied all the same and changes the
input. -/
theorem C5_stale_response_is_applied_counterexample :
    (processRealtimeAudioChunk_request (fun _ => []) (sampleApp "draw a circle".toList)
        (Blob.zeros 60)).map Request.session_id = some (some "session_1_abc".toList) ∧
    (stopVoiceRecording (sampleApp "draw a circle".toList)).realtimeSessionId = none ∧
    (processRealtimeAudioChunk_response (stopVoiceRecording (sampleApp "draw a circle".toList))
        (some (partialResult "then rotate".toList))).promptInput
      = "draw a circle [识别中...] then rotate".toList ∧
    (processRealtimeAudioChunk_response (stopVoiceRecording (sampleApp "draw a circle".toList))
        (some (partialResult "then rotate".toList))).promptInput
      ≠ (stopVoiceRecording (sampleApp "draw a circle".toList)).promptInput := by
  decide

/-- C5, amended: the handling of a chunk response compares no session id.
Whatever the active session id is when the response arrives, the new value of
the input is the same: `updateRealtimeText` applied to the current value when
the response is successful with a non-blank text, the current value otherwise;
the session id itself is left as it is. -/
theorem C5_response_handling_ignores_session_id (app : App) (sid : Option Str)
    (response : Option Result) :
    (processRealtimeAudioChunk_response { app with realtimeSessionId := sid } response).promptInput
      = (processRealtimeAudioChunk_response app response).promptInput ∧
    (processRealtimeAudioChunk_response app response).promptInput
      = (match response with
         | some result =>
           if hasText result then updateRealtimeText app.promptInput result else app.promptInput
         | none => app.promptInput) ∧
    (processRealtimeAudioChunk_response app response).realtimeSessionId
      = app.realtimeSessionId := by
  cases response with
  | none => exact ⟨rfl, rfl, rfl⟩
  | some result =>
    cases h : hasText result <;> simp [processRealtimeAudioChunk_response, h]

/-! ## Text outside the marker region -/

/-- C6 as stated fails: the value `  draw a circle` holds no marker, and after
a successful partial result it is not a prefix of the new value, whose
leading spaces are gone. -/
theorem C6_leading_whitespace_lost_counterexample :
    cutAtMarker "  draw a circle".toList = "  draw a circle".toList ∧
    updateRealtimeText "  draw a circle".toList (partialResult "then".toList)
      = "draw a circle [识别中...] then".toList ∧
    ¬ (cutAtMarker "  draw a circle".toList
        <+: updateRealtimeText "  draw a circle".toList (partialResult "then".toList)) := by
  decide

/-- C6, amended: for every value `v` and every successful result with a
non-empty text, partial or not, the part of `v` that precedes the marker
region, trimmed of leading and trailing white space, is a prefix of the new
value. -/
theorem C6_trimmed_committed_part_is_prefix (v : Str) (r : Result)
    (hs : r.success = true) (ht : truthyText r.text = true) :
    trim (cutAtMarker v) <+: updateRealtimeText v r := by
  have h : trim (cutAtMarker v) <+: trim (stripMarkerTail v) :=
    trim_prefix_of_prefix _ _ (cutAtMarker_prefix_stripMarkerTail v)
  unfold updateRealtimeText
  simp only [hs, ht, Bool.and_self, if_true]
  cases r.isPartial with
  | true =>
    simp only [if_true, List.append_assoc]
    exact h.trans (List.prefix_append _ _)
  | false =>
    simp only [Bool.false_eq_true, if_false, List.append_assoc]
    exact h.trans (List.prefix_append _ _)

/-- C6, the amended statement at a value with white space around the committed
text and a marker region behind it. -/
theorem C6_trimmed_committed_part_is_prefix_witness :
    truthyText (partialResult "then".toList).text = true ∧
    trim (cutAtMarker "  draw a circle\n [识别中...] old".toList) = "draw a circle".toList ∧
    trim (cutAtMarker "  draw a circle\n [识别中...] old".toList)
      <+: updateRealtimeText "  draw a circle\n [识别中...] old".toList
            (partialResult "then".toList) :=
  ⟨by decide, by decide,
    C6_trimmed_committed_part_is_prefix "  draw a circle\n [识别中...] old".toList
      (partialResult "then".toList) rfl (by decide)⟩

/-! ## Chunks: threshold and buffer -/

/-- C7: `processRealtimeAudioChunk` issues a request exactly when the chunk has
at least 50 bytes, and then one request, not final, for that chunk; for a
smaller chunk it issues none and leaves every field, the input included,
unchanged. -/
theorem C7_request_iff_at_least_50_bytes (blobToBase64 : Blob → Str)
    (service : Request → Option Result) (app : App) (audioBlob : Blob) :
    ((processRealtimeAudioChunk blobToBase64 service app audioBlob).2 ≠ [] ↔
        50 ≤ audioBlob.size) ∧
    (50 ≤ audioBlob.size →
      (processRealtimeAudioChunk blobToBase64 service app audioBlob).2
        = [{ audio_chunk := blobToBase64 audioBlob,
             session_id := app.realtimeSessionId, is_final := false }]) ∧
    (audioBlob.size < 50 →
      processRealtimeAudioChunk blobToBase64 service app audioBlob = (app, [])) := by
  unfold processRealtimeAudioChunk processRealtimeAudioChunk_request
  by_cases h : audioBlob.size < 50
  · simp [h]
  · have h2 : 50 ≤ audioBlob.size := Nat.le_of_not_lt h
    simp [h, h2]

/-- C7 at a chunk of 10 bytes: no request, fields unchanged. -/
theorem C7_request_iff_at_least_50_bytes_witness :
    (Blob.zeros 10).size < 50 ∧
    processRealtimeAudioChunk (fun _ => []) (fun _ => some (partialResult "x".toList))
        (sampleApp "draw a circle".toList) (Blob.zeros 10)
      = (sampleApp "draw a circle".toList, []) :=
  ⟨by decide,
    (C7_request_iff_at_least_50_bytes (fun _ => []) (fun _ => some (partialResult "x".toList))
      (sampleApp "draw a circle".toList) (Blob.zeros 10)).2.2 (by decide)⟩

theorem sessionStep_realtimeChunks (blobToBase64 : Blob → Str) (app : App) (e : SessionEvent) :
    (sessionStep blobToBase64 app e).realtimeChunks
      = app.realtimeChunks ++ deliveredChunks [e] := by
  cases e with
  | dataavailable data =>
    cases data with
    | none => simp [sessionStep, ondataavailable, deliveredChunks]
    | some blob =>
      by_cases h : blob.size > 0
      · simp [sessionStep, ondataavailable, deliveredChunks, h]
      · simp [sessionStep, ondataavailable, deliveredChunks, h]
  | chunkResponse response =>
    cases response with
    | none => simp [sessionStep, processRealtimeAudioChunk_response, deliveredChunks]
    | some result =>
      simp only [sessionStep, processRealtimeAudioChunk_response, deliveredChunks]
      cases hasText result <;> simp

theorem deliveredChunks_cons (e : SessionEvent) (rest : List SessionEvent) :
    deliveredChunks (e :: rest) = deliveredChunks [e] ++ deliveredChunks rest := by
  cases e with
  | dataavailable data =>
    cases data with
    | none => simp [deliveredChunks]
    | some blob =>
      by_cases h : blob.size > 0 <;> simp [deliveredChunks, h]
  | chunkResponse response => simp [deliveredChunks]

theorem runSession_realtimeChunks (blobToBase64 : Blob → Str) (events : List SessionEvent)
    (app : App) :
    (runSession blobToBase64 app events).realtimeChunks
      = app.realtimeChunks ++ deliveredChunks events := by
  induction events generalizing app with
  | nil => simp [runSession, deliveredChunks]
  | cons e rest ih =>
    have hstep : runSession blobToBase64 app (e :: rest)
        = runSession blobToBase64 (sessionStep blobToBase64 app e) rest := rfl
    rw [hstep, ih, sessionStep_realtimeChunks, deliveredChunks_cons e rest, List.append_assoc]

/-- C8: after `startRealtimeRecording` has succeeded, whatever chunk events and
chunk responses follow, `realtimeChunks` is the list of the delivered chunks of
size above zero, in delivery order, those under 50 bytes included; and every
single event keeps the buffer it finds as a prefix of the buffer it leaves. -/
theorem C8_buffer_is_delivered_chunks_in_order (blobToBase64 : Blob → Str) (app : App)
    (sessionId : Str) (events : List SessionEvent) :
    (runSession blobToBase64 (startRealtimeRecording app true sessionId) events).realtimeChunks
      = deliveredChunks events ∧
    ∀ (app1 : App) (e : SessionEvent),
      app1.realtimeChunks <+: (sessionStep blobToBase64 app1 e).realtimeChunks := by
  constructor
  · rw [runSession_realtimeChunks]
    simp [startRealtimeRecording]
  · intro app1 e
    rw [sessionStep_realtimeChunks]
    exact List.prefix_append _ _

/-! ## The final request -/

/-- The requests of the uninterrupted run are those of its first half. -/
theorem finalizeRealtimeRecognition_requests (blobToBase64 : Blob → Str)
    (service : Request → Option Result) (app : App) :
    (finalizeRealtimeRecognition blobToBase64 service app).2
      = finalizeRealtimeRecognition_request blobToBase64 app := by
  unfold finalizeRealtimeRecognition finalizeRealtimeRecognition_request
  cases h : (app.realtimeChunks.length == 0) with
  | true => simp
  | false =>
    cases hm : app.mediaRecorder with
    | none => simp
    | some m => simp

theorem sessionStep_realtimeSessionId (blobToBase64 : Blob → Str) (app : App)
    (e : SessionEvent) :
    (sessionStep blobToBase64 app e).realtimeSessionId = app.realtimeSessionId := by
  cases e with
  | dataavailable data =>
    cases data with
    | none => rfl
    | some blob =>
      by_cases h : blob.size > 0 <;> simp [sessionStep, ondataavailable, h]
  | chunkResponse response =>
    cases response with
    | none => rfl
    | some result =>
      cases h : hasText result <;> simp [sessionStep, processRealtimeAudioChunk_response, h]

theorem runSession_realtimeSessionId (blobToBase64 : Blob → Str) (events : List SessionEvent)
    (app : App) :
    (runSession blobToBase64 app events).realtimeSessionId = app.realtimeSessionId := by
  induction events generalizing app with
  | nil => rfl
  | cons e rest ih =>
    have hstep : runSession blobToBase64 app (e :: rest)
        = runSession blobToBase64 (sessionStep blobToBase64 app e) rest := rfl
    rw [hstep, ih, sessionStep_realtimeSessionId]

/-- Once `stopVoiceRecording` has run, whatever chunk events and responses
follow, every request issued by the handler `onstop` carries `null` as
`session_id`. -/
theorem onstop_request_after_stop_has_null_session (blobToBase64 : Blob → Str) (app : App)
    (events : List SessionEvent) :
    ∀ request ∈ onstop_request blobToBase64
        (runSession blobToBase64 (stopVoiceRecording app) events),
      request.session_id = none := by
  intro request hmem
  have hid : (runSession blobToBase64 (stopVoiceRecording app) events).realtimeSessionId
      = none := by
    rw [runSession_realtimeSessionId]
    rfl
  unfold onstop_request finalizeRealtimeRecognition_request at hmem
  split at hmem
  · cases hmem
  · split at hmem
    · cases hmem
    · rw [List.mem_singleton] at hmem
      rw [hmem]
      exact hid

/-- C9, the code at the failing input: a session is started with the id
`session_1_abc`, a chunk of 60 bytes is delivered and its request carries that
id; `stopVoiceRecording` is called; the handler `onstop`, which the browser
runs after it, issues the final request with `session_id` equal to `null`,
not to the id of the session. -/
theorem C9_final_request_carries_null_session_id :
    (ondataavailable (fun _ => [])
        (startRealtimeRecording (App.init []) true "session_1_abc".toList)
        (some (Blob.zeros 60))).2
      = some { audio_chunk := [], session_id := some "session_1_abc".toList,
               is_final := false } ∧
    onstop_request (fun _ => [])
        (stopVoiceRecording
          (ondataavailable (fun _ => [])
            (startRealtimeRecording (App.init []) true "session_1_abc".toList)
            (some (Blob.zeros 60))).1)
      = [{ audio_chunk := [], session_id := none, is_final := true }] := by
  decide

/-- C10: one call of `finalizeRealtimeRecognition` issues at most one request.
With an empty buffer it issues none and changes nothing; with a non-empty
buffer (and the recorder that filled it) it issues exactly one request, marked
final, whose payload encodes the bytes of all buffered chunks in buffer
order. -/
theorem C10_finalize_issues_one_final_request (blobToBase64 : Blob → Str)
    (service : Request → Option Result) (app : App) :
    (finalizeRealtimeRecognition blobToBase64 service app).2.length ≤ 1 ∧
    (app.realtimeChunks = [] →
      finalizeRealtimeRecognition blobToBase64 service app = (app, [])) ∧
    (app.realtimeChunks ≠ [] → app.mediaRecorder ≠ none →
      (finalizeRealtimeRecognition blobToBase64 service app).2
        = [{ audio_chunk := blobToBase64 ⟨(app.realtimeChunks.map Blob.bytes).flatten⟩,
             session_id := app.realtimeSessionId, is_final := true }]) := by
  unfold finalizeRealtimeRecognition
  cases hc : app.realtimeChunks with
  | nil => simp
  | cons b bs =>
    cases hm : app.mediaRecorder with
    | none => simp
    | some m => simp [Blob.ofParts, hc]

/-- C10 at a buffer of two chunks, of 60 and of 10 bytes. -/
theorem C10_finalize_issues_one_final_request_witness :
    ({ sampleApp [] with realtimeChunks := [Blob.zeros 60, Blob.zeros 10] } : App).realtimeChunks
      ≠ [] ∧
    ({ sampleApp [] with realtimeChunks := [Blob.zeros 60, Blob.zeros 10] } : App).mediaRecorder
      ≠ none ∧
    (finalizeRealtimeRecognition (fun b => List.replicate b.size 'A') (fun _ => none)
        { sampleApp [] with realtimeChunks := [Blob.zeros 60, Blob.zeros 10] }).2
      = [{ audio_chunk := List.replicate 70 'A',
           session_id := some "session_1_abc".toList, is_final := true }] :=
  ⟨by decide, by decide, by
    rw [(C10_finalize_issues_one_final_request (fun b => List.replicate b.size 'A')
      (fun _ => none)
      { sampleApp [] with realtimeChunks := [Blob.zeros 60, Blob.zeros 10] }).2.2
      (by decide) (by decide)]
    decide⟩

/-! ## Failures of chunk requests and of the microphone -/

/-- A response that is no success, or a request that threw, changes no field. -/
theorem processRealtimeAudioChunk_response_of_failure (app : App) (response : Option Result)
    (h : response = none ∨ ∃ r, response = some r ∧ r.success = false) :
    processRealtimeAudioChunk_response app response = app := by
  rcases h with rfl | ⟨r, rfl, hr⟩
  · rfl
  · simp [processRealtimeAudioChunk_response, hasText, hr]

/-- C11: when the request of a chunk throws, or its response has
`success = false`, `processRealtimeAudioChunk` returns with every field (the
input, `realtimeChunks`, `realtimeSessionId`, `realtimeRecording`) as it was,
both seen from the arrival of the response and as a whole; the events that
follow are then processed as if the failed response had never arrived. -/
theorem C11_chunk_failure_changes_nothing (blobToBase64 : Blob → Str) (app : App)
    (audioBlob : Blob) (response : Option Result)
    (h : response = none ∨ ∃ r, response = some r ∧ r.success = false) :
    processRealtimeAudioChunk_response app response = app ∧
    (processRealtimeAudioChunk blobToBase64 (fun _ => response) app audioBlob).1 = app ∧
    ∀ rest : List SessionEvent,
      runSession blobToBase64 app (.chunkResponse response :: rest)
        = runSession blobToBase64 app rest := by
  have hresp := processRealtimeAudioChunk_response_of_failure app response h
  refine ⟨hresp, ?_, ?_⟩
  · unfold processRealtimeAudioChunk
    cases processRealtimeAudioChunk_request blobToBase64 app audioBlob with
    | none => rfl
    | some request => exact hresp
  · intro rest
    have hstep : runSession blobToBase64 app (.chunkResponse response :: rest)
        = runSession blobToBase64 (processRealtimeAudioChunk_response app response) rest := rfl
    rw [hstep, hresp]

/-- C11 at a chunk of 60 bytes whose response reports failure. -/
theorem C11_chunk_failure_changes_nothing_witness :
    (some failedResult = none ∨ ∃ r, some failedResult = some r ∧ r.success = false) ∧
    (processRealtimeAudioChunk (fun _ => []) (fun _ => some failedResult)
        (sampleApp "draw a circle [识别中...] then".toList) (Blob.zeros 60)).1
      = sampleApp "draw a circle [识别中...] then".toList :=
  ⟨Or.inr ⟨failedResult, rfl, rfl⟩,
    (C11_chunk_failure_changes_nothing (fun _ => []) (sampleApp "draw a circle [识别中...] then".toList)
      (Blob.zeros 60) (some failedResult) (Or.inr ⟨failedResult, rfl, rfl⟩)).2.1⟩

/-- C12: when `getUserMedia` rejects, `startRealtimeRecording` returns with
every field as it was, so `realtimeRecording`, `realtimeSessionId`,
`realtimeChunks` and `mediaRecorder` are unchanged and no session id is
allocated, and it shows exactly one toast, of type `error`. -/
theorem C12_failed_acquisition_changes_nothing (app : App) (sessionId : Str) :
    startRealtimeRecording app false sessionId = app ∧
    (startRealtimeRecording app false sessionId).realtimeRecording = app.realtimeRecording ∧
    (startRealtimeRecording app false sessionId).realtimeSessionId = app.realtimeSessionId ∧
    (startRealtimeRecording app false sessionId).realtimeChunks = app.realtimeChunks ∧
    (startRealtimeRecording app false sessionId).mediaRecorder = app.mediaRecorder ∧
    (startRealtimeRecording_toasts false).length = 1 ∧
    (startRealtimeRecording_toasts false).map Toast.type = ["error".toList] := by
  refine ⟨rfl, rfl, rfl, rfl, rfl, rfl, rfl⟩

/-! ## Starting and stopping sessions -/

/-- C13 as stated fails: two clicks in a row each call `startVoiceRecording`,
because no flag is set before `getUserMedia` settles.  When the second call
goes on, a session is active (`realtimeRecording` is set); the new session id
is allocated and the new recorder started while the recorder of the first
session keeps recording, so two recorders capture at once. -/
theorem C13_second_start_keeps_first_recorder_counterexample :
    (getUserMediaSettled (toggleVoiceRecording (toggleVoiceRecording (Page.init []) true) true)
        true "session_1".toList).app.realtimeRecording = true ∧
    (getUserMediaSettled
        (getUserMediaSettled (toggleVoiceRecording (toggleVoiceRecording (Page.init []) true) true)
          true "session_1".toList)
        true "session_2".toList).app.realtimeSessionId = some "session_2".toList ∧
    (getUserMediaSettled
        (getUserMediaSettled (toggleVoiceRecording (toggleVoiceRecording (Page.init []) true) true)
          true "session_1".toList)
        true "session_2".toList).detached = [{ state := .recording }] ∧
    (getUserMediaSettled
        (getUserMediaSettled (toggleVoiceRecording (toggleVoiceRecording (Page.init []) true) true)
          true "session_1".toList)
        true "session_2".toList).capturing = 2 := by
  decide

/-- C13, amended: the only guard is the one of `toggleVoiceRecording`.  Called
while `isRecording` or `realtimeRecording` is set, it stops the active session
(both flags cleared, the recorder made inactive when it was recording) and
starts none; it calls `startVoiceRecording` only when both flags
are clear.  The start itself, once `getUserMedia` has settled, leaves the
recorder it finds as it is. -/
theorem C13_toggle_guards_start (page : Page) (modifier : Bool) :
    ((page.app.isRecording || page.app.realtimeRecording) = true →
      (toggleVoiceRecording page modifier).pending = page.pending ∧
      (toggleVoiceRecording page modifier).app = stopVoiceRecording page.app ∧
      (toggleVoiceRecording page modifier).app.isRecording = false ∧
      (toggleVoiceRecording page modifier).app.realtimeRecording = false ∧
      (page.app.mediaRecorder = some { state := .recording } →
        (toggleVoiceRecording page modifier).app.mediaRecorder = some { state := .inactive })) ∧
    ((page.app.isRecording || page.app.realtimeRecording) = false →
      (toggleVoiceRecording page modifier).pending = page.pending ++ [modifier] ∧
      (toggleVoiceRecording page modifier).app.mediaRecorder = page.app.mediaRecorder) ∧
    (∀ (sessionId : Str) (realtime : Bool) (rest : List Bool), page.pending = realtime :: rest →
      (getUserMediaSettled page true sessionId).detached
        = page.detached ++ page.app.mediaRecorder.toList) := by
  refine ⟨?_, ?_, ?_⟩
  · intro h
    have ht : toggleVoiceRecording page modifier
        = { page with app := stopVoiceRecording page.app } := by
      unfold toggleVoiceRecording
      rw [if_pos h]
    rw [ht]
    refine ⟨rfl, rfl, rfl, rfl, ?_⟩
    intro hm
    simp [stopVoiceRecording, hm]
  · intro h
    have ht : toggleVoiceRecording page modifier
        = { page with app := { page.app with isRealtimeMode := modifier },
                      pending := page.pending ++ [modifier] } := by
      unfold toggleVoiceRecording
      rw [if_neg (by simp [h])]
    rw [ht]
    exact ⟨rfl, rfl⟩
  · intro sessionId realtime rest hp
    simp [getUserMediaSettled, hp]

/-- C13, the amended statement at a page with an active realtime session. -/
theorem C13_toggle_guards_start_witness :
    (({ app := sampleApp [], detached := [], pending := [] } : Page).app.isRecording
      || ({ app := sampleApp [], detached := [], pending := [] } : Page).app.realtimeRecording)
      = true ∧
    (toggleVoiceRecording { app := sampleApp [], detached := [], pending := [] } true).pending = [] ∧
    (toggleVoiceRecording { app := sampleApp [], detached := [], pending := [] } true).app.mediaRecorder
      = some { state := .inactive } :=
  ⟨by decide,
    ((C13_toggle_guards_start { app := sampleApp [], detached := [], pending := [] } true).1
      (by decide)).1,
    ((C13_toggle_guards_start { app := sampleApp [], detached := [], pending := [] } true).1
      (by decide)).2.2.2.2 (by decide)⟩

/-- C14 as stated fails: after `stopVoiceRecording`, a chunk of 60 bytes
delivered to the handler is appended to `realtimeChunks` and a request for it
is issued, with `session_id` equal to `null`. -/
theorem C14_chunk_after_stop_is_accepted_counterexample :
    (ondataavailable (fun _ => []) (stopVoiceRecording (sampleApp [])) (some (Blob.zeros 60))).1.realtimeChunks
      = [Blob.zeros 60, Blob.zeros 60] ∧
    (stopVoiceRecording (sampleApp [])).realtimeChunks = [Blob.zeros 60] ∧
    (ondataavailable (fun _ => []) (stopVoiceRecording (sampleApp [])) (some (Blob.zeros 60))).2
      = some { audio_chunk := [], session_id := none, is_final := false } := by
  decide

/-- C14, amended: the handler looks neither at the recording flag nor at the
session id.  A chunk delivered after `stopVoiceRecording` is appended to
`realtimeChunks` when its size is above zero, and then transmitted, in a
request that is not final, when it has at least 50 bytes; a chunk event
without data or of size zero is neither appended nor transmitted.  The chunk
appended after the stop is part of the audio of the final request: the request
issued by `onstop` afterwards encodes the buffer as it was before the stop
followed by that chunk. -/
theorem C14_handler_after_stop (blobToBase64 : Blob → Str) (app : App) (blob : Blob) :
    (0 < blob.size →
      (ondataavailable blobToBase64 (stopVoiceRecording app) (some blob)).1.realtimeChunks
        = app.realtimeChunks ++ [blob]) ∧
    (50 ≤ blob.size →
      (ondataavailable blobToBase64 (stopVoiceRecording app) (some blob)).2.map
          (fun request => (request.audio_chunk, request.is_final))
        = some (blobToBase64 blob, false)) ∧
    (0 < blob.size → blob.size < 50 →
      (ondataavailable blobToBase64 (stopVoiceRecording app) (some blob)).2 = none) ∧
    (blob.size = 0 →
      ondataavailable blobToBase64 (stopVoiceRecording app) (some blob)
        = (stopVoiceRecording app, none)) ∧
    ondataavailable blobToBase64 (stopVoiceRecording app) none
      = (stopVoiceRecording app, none) ∧
    (0 < blob.size → app.mediaRecorder ≠ none →
      (onstop_request blobToBase64
          (ondataavailable blobToBase64 (stopVoiceRecording app) (some blob)).1).map
          (fun request => (request.audio_chunk, request.is_final))
        = [(blobToBase64 ⟨((app.realtimeChunks ++ [blob]).map Blob.bytes).flatten⟩, true)]) := by
  refine ⟨?_, ?_, ?_, ?_, rfl, ?_⟩
  · intro h
    simp [ondataavailable, h, stopVoiceRecording]
  · intro h
    have h0 : 0 < blob.size := by omega
    have h1 : ¬ blob.size < 50 := by omega
    simp [ondataavailable, h0, processRealtimeAudioChunk_request, h1, stopVoiceRecording]
  · intro h0 h1
    simp [ondataavailable, h0, processRealtimeAudioChunk_request, h1]
  · intro h
    simp [ondataavailable, h]
  · intro h hm
    cases hrec : app.mediaRecorder with
    | none => exact absurd hrec hm
    | some m =>
      by_cases hstate : m.state = .recording
      · simp [onstop_request, finalizeRealtimeRecognition_request, ondataavailable, h,
          stopVoiceRecording, hrec, hstate, Blob.ofParts]
      · simp [onstop_request, finalizeRealtimeRecognition_request, ondataavailable, h,
          stopVoiceRecording, hrec, hstate, Blob.ofParts]

/-- C14, the amended statement at a chunk of 60 bytes. -/
theorem C14_handler_after_stop_witness :
    0 < (Blob.zeros 60).size ∧ 50 ≤ (Blob.zeros 60).size ∧
    (ondataavailable (fun b => List.replicate b.size 'A') (stopVoiceRecording (sampleApp []))
        (some (Blob.zeros 60))).1.realtimeChunks = (sampleApp []).realtimeChunks ++ [Blob.zeros 60] ∧
    (ondataavailable (fun b => List.replicate b.size 'A') (stopVoiceRecording (sampleApp []))
        (some (Blob.zeros 60))).2.map (fun request => (request.audio_chunk, request.is_final))
      = some ((fun b => List.replicate b.size 'A') (Blob.zeros 60), false) ∧
    (sampleApp []).mediaRecorder ≠ none ∧
    (onstop_request (fun b => List.replicate b.size 'A')
        (ondataavailable (fun b => List.replicate b.size 'A') (stopVoiceRecording (sampleApp []))
          (some (Blob.zeros 60))).1).map (fun request => (request.audio_chunk, request.is_final))
      = [(List.replicate 120 'A', true)] :=
  ⟨by decide, by decide,
    (C14_handler_after_stop (fun b => List.replicate b.size 'A') (sampleApp []) (Blob.zeros 60)).1
      (by decide),
    (C14_handler_after_stop (fun b => List.replicate b.size 'A') (sampleApp []) (Blob.zeros 60)).2.1
      (by decide),
    by decide,
    by
      rw [(C14_handler_after_stop (fun b => List.replicate b.size 'A') (sampleApp [])
        (Blob.zeros 60)).2.2.2.2.2 (by decide) (by decide)]
      decide⟩

/-! ## Lemmas on occurrences -/

/-- The test `includes` decides whether the pattern is an infix. -/
theorem includes_iff (pat s : Str) : includes pat s = true ↔ pat <:+: s := by
  induction s with
  | nil => simp [includes, List.isEmpty_iff]
  | cons c cs ih =>
    rw [includes, Bool.or_eq_true, ih, List.infix_cons_iff, List.isPrefixOf_iff_prefix]

theorem not_infix_tail {pat : Str} {c : Char} {cs : Str} (h : ¬ pat <:+: c :: cs) :
    ¬ pat <:+: cs := fun hcs => h (List.infix_cons_iff.mpr (Or.inr hcs))

theorem isPrefixOf_false_of_no_occurrence {pat s : Str} (h : ¬ pat <:+: s) :
    pat.isPrefixOf s = false := by
  cases hp : pat.isPrefixOf s with
  | false => rfl
  | true => exact absurd (List.isPrefixOf_iff_prefix.mp hp).isInfix h

/-- Without an occurrence of the tag the pattern of `updateRealtimeText`
removes nothing. -/
theorem stripMarkerTail_of_no_tag (v : Str) (h : ¬ markerTag <:+: v) :
    stripMarkerTail v = v := by
  induction v with
  | nil => rfl
  | cons c cs ih =>
    rw [stripMarkerTail, isPrefixOf_false_of_no_occurrence h, ih (not_infix_tail h)]
    simp

/-- Without an occurrence of the opening the pattern of
`finalizeRealtimeRecognition` removes nothing. -/
theorem removeMarkers_of_no_open (v : Str) (h : ¬ markerOpen <:+: v) :
    removeMarkers v = v := by
  unfold removeMarkers
  induction v with
  | nil => rfl
  | cons c cs ih =>
    have hm : markerMatchLength (c :: cs) = none := by
      unfold markerMatchLength
      rw [isPrefixOf_false_of_no_occurrence h]
      simp
    rw [removeMarkersAux, hm, ih (not_infix_tail h)]

theorem trim_isInfix (s : Str) : trim s <:+: s := by
  unfold trim trimStart
  exact (trimEnd_isPrefix _).isInfix.trans (List.dropWhile_suffix _).isInfix

theorem removeMarkersAux_nil (k : Nat) : removeMarkersAux k [] = [] := by
  cases k <;> rfl

theorem markerTag_chars : markerTag = ['[', '识', '别', '中', '.', '.', '.', ']'] := rfl

theorem markerOpen_chars : markerOpen = ['[', '识', '别', '中'] := rfl

/-- A match of the pattern begins with the opening. -/
theorem markerOpen_prefix_of_match {s : Str} {n : Nat} (h : markerMatchLength s = some n) :
    markerOpen <+: s := by
  unfold markerMatchLength at h
  cases hp : markerOpen.isPrefixOf s with
  | true => exact List.isPrefixOf_iff_prefix.mp hp
  | false => simp [hp] at h

/-- Where the pattern matches, a `]` is reached before any line terminator. -/
theorem lazyCloseLength_of_match {s : Str} {n : Nat} (h : markerMatchLength s = some n) :
    lazyCloseLength s ≠ none := by
  obtain ⟨rest, rfl⟩ := markerOpen_prefix_of_match h
  unfold markerMatchLength at h
  have hd : (markerOpen ++ rest).drop markerOpen.length = rest := by
    rw [List.drop_left]
  rw [hd] at h
  cases hl : lazyCloseLength rest with
  | none => simp [hl] at h
  | some m =>
    rw [markerOpen_chars]
    simp [lazyCloseLength, isLineTerminator, hl]

theorem no_splice_of_hasSpliceOpening {s : Str} (h : hasSpliceOpening s = false) :
    ∀ f ∈ spliceOpenings, ¬ f <:+: s := by
  intro f hf hin
  unfold hasSpliceOpening at h
  rw [List.any_eq_false] at h
  exact h f hf ((includes_iff f s).mpr hin)

/-- On a line without `]` the replacement yields no text made of characters
other than `]` and line terminators that is closed by `]`. -/
theorem no_close_of_lazyCloseLength_none (u : Str) (h : lazyCloseLength u = none) (w : Str)
    (hw : ∀ ch ∈ w, (ch == ']') = false ∧ isLineTerminator ch = false) :
    ¬ (w ++ [']']) <+: removeMarkersAux 0 u := by
  induction u generalizing w with
  | nil => simp [removeMarkersAux]
  | cons c cs ih =>
    have hmatch : markerMatchLength (c :: cs) = none := by
      cases hm : markerMatchLength (c :: cs) with
      | none => rfl
      | some n => exact absurd h (lazyCloseLength_of_match hm)
    have hR : removeMarkersAux 0 (c :: cs) = c :: removeMarkersAux 0 cs := by
      rw [removeMarkersAux, hmatch]
    rw [hR]
    rw [lazyCloseLength] at h
    cases hc : (c == ']') with
    | true => simp [hc] at h
    | false =>
      rw [hc] at h
      simp only [Bool.false_eq_true, if_false] at h
      cases w with
      | nil =>
        intro hp
        rw [List.nil_append, List.cons_prefix_cons] at hp
        rw [← hp.1] at hc
        simp at hc
      | cons x w1 =>
        intro hp
        rw [List.cons_append, List.cons_prefix_cons] at hp
        have hx := hw x (List.mem_cons_self x w1)
        rw [hp.1] at hx
        rw [hx.2] at h
        simp only [Bool.false_eq_true, if_false, Option.map_eq_none'] at h
        exact ih h w1 (fun ch hch => hw ch (List.mem_cons_of_mem x hch)) hp.2


/-- A kept `[` where no match begins is not the start of a tag in what the
replacement yields, unless a beginning of the tag stands there directly in
front of an opening. -/
theorem no_tag_prefix_at_kept (c : Char) (cs : Str)
    (hm : markerMatchLength (c :: cs) = none)
    (hs : ∀ f ∈ spliceOpenings, ¬ f <+: c :: cs) :
    ¬ markerTag <+: c :: removeMarkersAux 0 cs := by
  intro hp
  rw [markerTag_chars, List.cons_prefix_cons] at hp
  obtain ⟨hc, hp⟩ := hp
  subst hc
  cases cs with
  | nil => simp [removeMarkersAux] at hp
  | cons d ds =>
    cases hm1 : markerMatchLength (d :: ds) with
    | some n =>
      have hopen := markerOpen_prefix_of_match hm1
      exact hs "[[识别中".toList (by simp [spliceOpenings])
        ((List.prefix_cons_inj '[').mpr hopen)
    | none =>
      rw [removeMarkersAux, hm1, List.cons_prefix_cons] at hp
      obtain ⟨hd, hp⟩ := hp
      subst hd
      cases ds with
      | nil => simp [removeMarkersAux] at hp
      | cons e es =>
        cases hm2 : markerMatchLength (e :: es) with
        | some n =>
          have hopen := markerOpen_prefix_of_match hm2
          exact hs "[识[识别中".toList (by simp [spliceOpenings])
            ((List.prefix_cons_inj '[').mpr ((List.prefix_cons_inj '识').mpr hopen))
        | none =>
          rw [removeMarkersAux, hm2, List.cons_prefix_cons] at hp
          obtain ⟨he, hp⟩ := hp
          subst he
          cases es with
          | nil => simp [removeMarkersAux] at hp
          | cons g gs =>
            cases hm3 : markerMatchLength (g :: gs) with
            | some n =>
              have hopen := markerOpen_prefix_of_match hm3
              exact hs "[识别[识别中".toList (by simp [spliceOpenings])
                ((List.prefix_cons_inj '[').mpr ((List.prefix_cons_inj '识').mpr
                  ((List.prefix_cons_inj '别').mpr hopen)))
            | none =>
              rw [removeMarkersAux, hm3, List.cons_prefix_cons] at hp
              obtain ⟨hg, hp⟩ := hp
              subst hg
              have hclose : lazyCloseLength gs = none := by
                unfold markerMatchLength at hm
                have hpre : markerOpen.isPrefixOf ('[' :: '识' :: '别' :: '中' :: gs) = true := by
                  rw [List.isPrefixOf_iff_prefix, markerOpen_chars]
                  exact List.prefix_append _ gs
                rw [hpre] at hm
                simpa [markerOpen_chars] using hm
              exact no_close_of_lazyCloseLength_none gs hclose ['.', '.', '.']
                (by decide) hp

/-- Unless a beginning of the tag stands directly in front of an opening, the
replacement yields a text without tag. -/
theorem no_tag_of_no_splice (s : Str) (k : Nat) (h : ∀ f ∈ spliceOpenings, ¬ f <:+: s) :
    ¬ markerTag <:+: removeMarkersAux k s := by
  induction s generalizing k with
  | nil =>
    rw [removeMarkersAux_nil, List.infix_nil, markerTag_chars]
    simp
  | cons c cs ih =>
    have hcs : ∀ f ∈ spliceOpenings, ¬ f <:+: cs := fun f hf => not_infix_tail (h f hf)
    cases k with
    | succ k =>
      rw [removeMarkersAux]
      exact ih k hcs
    | zero =>
      rw [removeMarkersAux]
      cases hm : markerMatchLength (c :: cs) with
      | some n => exact ih (n - 1) hcs
      | none =>
        show ¬ markerTag <:+: c :: removeMarkersAux 0 cs
        rw [List.infix_cons_iff]
        rintro (hp | hin)
        · exact no_tag_prefix_at_kept c cs hm (fun f hf hpre => h f hf hpre.isInfix) hp
        · exact ih 0 hcs hin

/-- What `replace` and `trim` leave of a text holds no tag, unless a beginning
of the tag stood directly in front of an opening. -/
theorem no_tag_after_strip (s : Str) (h : hasSpliceOpening s = false) :
    ¬ markerTag <:+: trim (removeMarkers s) := fun hin =>
  no_tag_of_no_splice s 0 (no_splice_of_hasSpliceOpening h) (hin.trans (trim_isInfix _))

/-! ## Stripping the marker -/

/-- C15 as stated fails: the value `draw a circle ` holds no tag, yet each
stripping step changes it, for the trailing space is trimmed away. -/
theorem C15_strip_trims_counterexample :
    ¬ markerTag <:+: "draw a circle ".toList ∧
    updateRealtimeText "draw a circle ".toList failedResult = "draw a circle".toList ∧
    (finalizeRealtimeRecognition_response (sampleApp "draw a circle ".toList)
        (some failedResult)).promptInput = "draw a circle".toList ∧
    (finalizeRealtimeRecognition_response (sampleApp "draw a circle ".toList) none).promptInput
      = "draw a circle".toList ∧
    "draw a circle".toList ≠ "draw a circle ".toList := by
  refine ⟨?_, by decide, by decide, by decide, by decide⟩
  rw [← includes_iff]
  decide

/-- C15, amended: for a value of the input without occurrence of the tag, the
failure branch of `updateRealtimeText` leaves the value trimmed of leading and
trailing white space; for a value without occurrence of the opening `[识别中`,
the failure branch and the exception branch of `finalizeRealtimeRecognition` do
the same.  A value that `trim` leaves alone is therefore left as it is. -/
theorem C15_strip_without_marker_is_trim (app : App) (r : Result) (hr : r.success = false) :
    (¬ markerTag <:+: app.promptInput →
      updateRealtimeText app.promptInput r = trim app.promptInput) ∧
    (¬ markerOpen <:+: app.promptInput →
      (finalizeRealtimeRecognition_response app (some r)).promptInput = trim app.promptInput ∧
      (finalizeRealtimeRecognition_response app none).promptInput = trim app.promptInput) := by
  constructor
  · intro h
    simp [updateRealtimeText, hr, stripMarkerTail_of_no_tag _ h]
  · intro h
    simp [finalizeRealtimeRecognition_response, hasText, hr, removeMarkers_of_no_open _ h]

/-- C15, the amended statement at a value with brackets of its own and no white
space at its ends, which is left as it is. -/
theorem C15_strip_without_marker_is_trim_witness :
    failedResult.success = false ∧
    ¬ markerTag <:+: (sampleApp "draw [a] circle".toList).promptInput ∧
    updateRealtimeText (sampleApp "draw [a] circle".toList).promptInput failedResult
      = trim (sampleApp "draw [a] circle".toList).promptInput ∧
    trim (sampleApp "draw [a] circle".toList).promptInput = "draw [a] circle".toList :=
  ⟨rfl, by rw [← includes_iff]; decide,
    (C15_strip_without_marker_is_trim (sampleApp "draw [a] circle".toList) failedResult rfl).1
      (by rw [← includes_iff]; decide),
    by decide⟩

/-- C16 as stated fails on the final path: with a marker in the input, a
response with `success = true` and a text of spaces only changes the input,
whose tag is removed. -/
theorem C16_final_path_strips_counterexample :
    hasText { success := true, text := some "   ".toList, isPartial := false } = false ∧
    (finalizeRealtimeRecognition (fun _ => [])
        (fun _ => some { success := true, text := some "   ".toList, isPartial := false })
        (sampleApp "draw a circle [识别中...]".toList)).1.promptInput = "draw a circle".toList ∧
    (finalizeRealtimeRecognition (fun _ => [])
        (fun _ => some { success := true, text := some "   ".toList, isPartial := false })
        (sampleApp "draw a circle [识别中...]".toList)).1.promptInput
      ≠ (sampleApp "draw a circle [识别中...]".toList).promptInput := by
  decide

/-- C16, amended: for a response with `success = true` whose text is missing,
empty or white space only, the per-chunk path leaves every field, the input
included, as it was; the final path handles the response as a failure: the
input gets the same value as for `success = false` and for a request that
throws, nothing of the response is written, and an input without occurrence
of the opening `[识别中` is left equal to its trimmed previous value. -/
theorem C16_blank_response_is_a_failure (blobToBase64 : Blob → Str) (app : App)
    (audioBlob : Blob) (r : Result)
    (_hs : r.success = true) (hb : truthyText (r.text.map trim) = false) :
    processRealtimeAudioChunk_response app (some r) = app ∧
    (processRealtimeAudioChunk blobToBase64 (fun _ => some r) app audioBlob).1 = app ∧
    (finalizeRealtimeRecognition_response app (some r)).promptInput
      = (finalizeRealtimeRecognition_response app (some failedResult)).promptInput ∧
    (finalizeRealtimeRecognition_response app (some r)).promptInput
      = (finalizeRealtimeRecognition_response app none).promptInput ∧
    (¬ markerOpen <:+: app.promptInput →
      (finalizeRealtimeRecognition_response app (some r)).promptInput
        = trim app.promptInput) := by
  have hh : hasText r = false := by simp [hasText, hb]
  have hresp : processRealtimeAudioChunk_response app (some r) = app := by
    simp [processRealtimeAudioChunk_response, hh]
  refine ⟨hresp, ?_, ?_, ?_, ?_⟩
  · unfold processRealtimeAudioChunk
    cases processRealtimeAudioChunk_request blobToBase64 app audioBlob with
    | none => rfl
    | some request => exact hresp
  · have hf : hasText failedResult = false := rfl
    simp [finalizeRealtimeRecognition_response, hh, hf]
  · simp [finalizeRealtimeRecognition_response, hh]
  · intro hopen
    simp [finalizeRealtimeRecognition_response, hh, removeMarkers_of_no_open _ hopen]

/-- C16, the amended statement at a response without the field `text`. -/
theorem C16_blank_response_is_a_failure_witness :
    ({ success := true, text := none, isPartial := false } : Result).success = true ∧
    truthyText (({ success := true, text := none, isPartial := false } : Result).text.map trim)
      = false ∧
    processRealtimeAudioChunk_response (sampleApp "draw a circle [识别中...] then".toList)
        (some { success := true, text := none, isPartial := false })
      = sampleApp "draw a circle [识别中...] then".toList :=
  ⟨rfl, rfl,
    (C16_blank_response_is_a_failure (fun _ => []) (sampleApp "draw a circle [识别中...] then".toList)
      (Blob.zeros 60) { success := true, text := none, isPartial := false } rfl rfl).1⟩

/-- C17 as stated fails: in the value `[识[识别中x]别中...]` the pattern matches
`[识别中x]` only, and what stands around the match closes up to the tag; after
a failed final result the input is the tag itself. -/
theorem C17_tag_spliced_counterexample :
    (finalizeRealtimeRecognition (fun _ => []) (fun _ => some failedResult)
        (sampleApp "[识[识别中x]别中...]".toList)).1.promptInput = markerTag ∧
    markerTag <:+: (finalizeRealtimeRecognition (fun _ => []) (fun _ => some failedResult)
        (sampleApp "[识[识别中x]别中...]".toList)).1.promptInput := by
  have h : (finalizeRealtimeRecognition (fun _ => []) (fun _ => some failedResult)
        (sampleApp "[识[识别中x]别中...]".toList)).1.promptInput = markerTag := by decide
  exact ⟨h, by rw [h]⟩



/-- C17, amended: after `finalizeRealtimeRecognition` has run with a non-empty
buffer the input holds no occurrence of the tag, provided the text that is
stripped (the text of the response on success, the previous value of the input
on failure and when the request throws) holds no beginning of the tag directly
in front of an opening, that is none of `[[识别中`, `[识[识别中` and
`[识别[识别中`.  Other brackets in the text do not matter. -/
theorem C17_no_tag_after_finalize (blobToBase64 : Blob → Str) (app : App) (r : Result)
    (hc : app.realtimeChunks ≠ []) :
    (hasText r = true → app.mediaRecorder ≠ none →
      hasSpliceOpening (r.text.getD []) = false →
      ¬ markerTag <:+:
        (finalizeRealtimeRecognition blobToBase64 (fun _ => some r) app).1.promptInput) ∧
    (hasText r = false → hasSpliceOpening app.promptInput = false →
      ¬ markerTag <:+:
        (finalizeRealtimeRecognition blobToBase64 (fun _ => some r) app).1.promptInput) ∧
    (hasSpliceOpening app.promptInput = false →
      ¬ markerTag <:+:
        (finalizeRealtimeRecognition blobToBase64 (fun _ => none) app).1.promptInput) := by
  have hlen : (app.realtimeChunks.length == 0) = false := by
    cases hl : app.realtimeChunks with
    | nil => exact absurd hl hc
    | cons b bs => rfl
  refine ⟨?_, ?_, ?_⟩
  · intro hh hm htext
    unfold finalizeRealtimeRecognition
    rw [hlen]
    cases hrec : app.mediaRecorder with
    | none => exact absurd hrec hm
    | some m =>
      simpa [finalizeRealtimeRecognition_response, hh] using no_tag_after_strip _ htext
  · intro hh hsink
    unfold finalizeRealtimeRecognition
    rw [hlen]
    cases hrec : app.mediaRecorder with
    | none => simpa using no_tag_after_strip _ hsink
    | some m =>
      simpa [finalizeRealtimeRecognition_response, hh] using no_tag_after_strip _ hsink
  · intro hsink
    unfold finalizeRealtimeRecognition
    rw [hlen]
    cases hrec : app.mediaRecorder with
    | none => simpa using no_tag_after_strip _ hsink
    | some m =>
      simpa [finalizeRealtimeRecognition_response] using no_tag_after_strip _ hsink

/-- C17, the amended statement at an input with ordinary brackets and a live
marker, for a failed final result, and at a final text that holds a tag. -/
theorem C17_no_tag_after_finalize_witness :
    (sampleApp "draw the interval [0,1] [识别中...] then".toList).realtimeChunks ≠ [] ∧
    hasText failedResult = false ∧
    hasSpliceOpening (sampleApp "draw the interval [0,1] [识别中...] then".toList).promptInput
      = false ∧
    ¬ markerTag <:+:
      (finalizeRealtimeRecognition (fun _ => []) (fun _ => some failedResult)
        (sampleApp "draw the interval [0,1] [识别中...] then".toList)).1.promptInput ∧
    (finalizeRealtimeRecognition (fun _ => []) (fun _ => some failedResult)
        (sampleApp "draw the interval [0,1] [识别中...] then".toList)).1.promptInput
      = "draw the interval [0,1]  then".toList ∧
    hasText (finalResult "then [识别中...] rotate [x]".toList) = true ∧
    hasSpliceOpening ((finalResult "then [识别中...] rotate [x]".toList).text.getD []) = false ∧
    ¬ markerTag <:+:
      (finalizeRealtimeRecognition (fun _ => [])
        (fun _ => some (finalResult "then [识别中...] rotate [x]".toList))
        (sampleApp "draw the interval [0,1] [识别中...] then".toList)).1.promptInput :=
  ⟨by decide, by decide, by decide,
    (C17_no_tag_after_finalize (fun _ => [])
      (sampleApp "draw the interval [0,1] [识别中...] then".toList) failedResult (by decide)).2.1
      (by decide) (by decide),
    by decide, by decide, by decide,
    (C17_no_tag_after_finalize (fun _ => [])
      (sampleApp "draw the interval [0,1] [识别中...] then".toList)
      (finalResult "then [识别中...] rotate [x]".toList) (by decide)).1
      (by decide) (by decide) (by decide)⟩

/-! ## One-shot recording and the character counter -/

/-- C18: for every value of the input, with trimmed text `cur`, and every
successful result with non-empty trimmed text `heard`, `processRecordedAudio`
sets the input to `cur`, a space and `heard` when `cur` is non-empty and does
not contain `heard`, and to `heard` alone otherwise; the new value ends with
`heard`, starts with `cur` unless `cur` contains `heard`, and is `heard` alone
when `cur` contains it. -/
theorem C18_one_shot_merge (value : Str) (result : Result) (h : hasText result = true) :
    trim (result.text.getD []) ≠ [] ∧
    processRecordedAudio_response value result
      = (if trim value ≠ [] ∧ ¬ trim (result.text.getD []) <:+: trim value then
          trim value ++ ' ' :: trim (result.text.getD [])
        else trim (result.text.getD [])) ∧
    trim (result.text.getD []) <:+ processRecordedAudio_response value result ∧
    (¬ trim (result.text.getD []) <:+: trim value →
      trim value <+: processRecordedAudio_response value result) ∧
    (trim (result.text.getD []) <:+: trim value →
      processRecordedAudio_response value result = trim (result.text.getD [])) := by
  have hne : trim (result.text.getD []) ≠ [] := by
    unfold hasText at h
    rw [Bool.and_eq_true] at h
    cases ht : result.text with
    | none => rw [ht] at h; simp [truthyText] at h
    | some t =>
      rw [ht] at h
      have h2 := h.2
      simp only [Option.map_some', truthyText, Bool.not_eq_true', List.isEmpty_eq_false] at h2
      simpa using h2
  have hspace : " ".toList = [' '] := rfl
  by_cases hin : trim (result.text.getD []) <:+: trim value
  · have hinc : includes (trim (result.text.getD [])) (trim value) = true :=
      (includes_iff _ _).mpr hin
    have hval : processRecordedAudio_response value result = trim (result.text.getD []) := by
      simp [processRecordedAudio_response, h, hinc]
    refine ⟨hne, ?_, ?_, ?_, ?_⟩
    · rw [hval]; simp [hin]
    · rw [hval]
    · intro hcon; exact absurd hin hcon
    · intro _; exact hval
  · have hinc : includes (trim (result.text.getD [])) (trim value) = false := by
      cases hv : includes (trim (result.text.getD [])) (trim value) with
      | false => rfl
      | true => exact absurd ((includes_iff _ _).mp hv) hin
    by_cases hcur : trim value = []
    · have hval : processRecordedAudio_response value result = trim (result.text.getD []) := by
        simp [processRecordedAudio_response, h, hcur]
      refine ⟨hne, ?_, ?_, ?_, ?_⟩
      · rw [hval]; simp [hcur]
      · rw [hval]
      · intro _; rw [hcur]; exact List.nil_prefix
      · intro _; exact hval
    · have hval : processRecordedAudio_response value result
          = trim value ++ ' ' :: trim (result.text.getD []) := by
        simp [processRecordedAudio_response, h, hinc, hcur, hspace]
      refine ⟨hne, ?_, ?_, ?_, ?_⟩
      · rw [hval]; simp [hcur, hin]
      · rw [hval]
        exact ⟨trim value ++ [' '], by simp⟩
      · intro _; rw [hval]; exact List.prefix_append _ _
      · intro hcon; exact absurd hcon hin

/-- C18 at the input ` draw a circle ` and the text `then rotate`. -/
theorem C18_one_shot_merge_witness :
    hasText (finalResult "then rotate ".toList) = true ∧
    processRecordedAudio_response " draw a circle ".toList (finalResult "then rotate ".toList)
      = "draw a circle then rotate".toList :=
  ⟨by decide, by
    rw [(C18_one_shot_merge " draw a circle ".toList (finalResult "then rotate ".toList)
      (by decide)).2.1]
    decide⟩

/-- C19: for every count, `updateCharCount` chooses the warning colour exactly
when the count is above 500 and the muted colour exactly when it is at most
500; it never chooses the error colour, not even above 1000. -/
theorem C19_char_count_colour (count : Nat) :
    (updateCharCount count = .warning ↔ count > 500) ∧
    (updateCharCount count = .textMuted ↔ count ≤ 500) ∧
    updateCharCount count ≠ .error := by
  unfold updateCharCount
  by_cases h : count > 500
  · simp [h]
  · have h2 : ¬ count > 1000 := by omega
    have h3 : count ≤ 500 := by omega
    simp [h, h2, h3]

end ManimGPT
